import Mathlib

/-!
Shallow embedding of the tinted slog handler (package tint) and proofs
about its rendering pipeline.  The definitions translate the newest
handler snapshot contained in the examined sources (the second handler
version of the corpus: `Options`, `handler`, `Handle`, `WithAttrs`,
`WithGroup`, `appendAttr`, `appendKey`, `appendValue`, `appendTintError`,
`appendString`, `needsQuoting`, `appendLevel`, `Err`).  External
collaborators (the slog value abstraction, the Go time and unicode
packages, the output writer) are modelled by the interfaces the handler
consumes, as the specification describes them.
-/

namespace Tint

/-! ### ANSI modes (source constants) -/

def ansiReset : String := "\x1b[0m"

def ansiFaint : String := "\x1b[2m"

def ansiResetFaint : String := "\x1b[22m"

def ansiBrightRed : String := "\x1b[91m"

def ansiBrightGreen : String := "\x1b[92m"

def ansiBrightYellow : String := "\x1b[93m"

def ansiBrightRedFaint : String := "\x1b[91;2m"

def keyErr : String := "err"

/-! ### Character predicates

The source calls `unicode.IsSpace` and `unicode.IsPrint` of the Go
standard library.  The model reproduces those predicates exactly on the
Latin-1 range (all characters the repository tests exercise); code
points above U+00FF are treated as printable non-space. -/

/-- Model of Go `unicode.IsSpace` on the Latin-1 range: tab, line feed,
vertical tab, form feed, carriage return, space, next-line and
no-break space. -/
def goIsSpace (c : Char) : Bool :=
  c.val == 9 || c.val == 10 || c.val == 11 || c.val == 12 || c.val == 13 ||
    c.val == 32 || c.val == 0x85 || c.val == 0xA0

/-- Model of Go `unicode.IsPrint` on the Latin-1 range: the ASCII space,
the visible ASCII characters, and the visible Latin-1 characters except
the soft hyphen; code points above U+00FF count as printable. -/
def goIsPrint (c : Char) : Bool :=
  c.val == 32 || (0x21 ≤ c.val && c.val ≤ 0x7e) ||
    (0xA1 ≤ c.val && c.val ≤ 0xFF && c.val != 0xAD) || c.val ≥ 0x100

/-- Per-rune test of `needsQuoting`: whitespace, a double quote, an
equals sign, or a non-printable character forces quoting. -/
def quoteRune (c : Char) : Bool :=
  goIsSpace c || c == '"' || c == '=' || !(goIsPrint c)

/-- Source `needsQuoting`: ranges over the runes of the string and
reports whether any rune is whitespace, a double quote, an equals sign
or non-printable.  Note that the loop body never runs on the empty
string, so the empty string reports `false`. -/
def needsQuoting (s : String) : Bool :=
  s.data.any quoteRune

/-! ### Go quoting (strconv.AppendQuote)

The source quotes via `strconv.AppendQuote` of the Go standard library.
The model reproduces it for strings of printable ASCII characters (the
only ones the proofs quote): surrounding double quotes, with backslash
escapes for the double quote and the backslash, `\t`, `\n`, `\r` for
the common control characters and a two-digit hex escape otherwise. -/

def hexDigit (n : Nat) : Char :=
  if n < 10 then Char.ofNat (48 + n) else Char.ofNat (97 + (n - 10))

def goQuoteChar (c : Char) : List Char :=
  if c == '"' then ['\\', '"']
  else if c == '\\' then ['\\', '\\']
  else if c == '\t' then ['\\', 't']
  else if c == '\n' then ['\\', 'n']
  else if c == '\r' then ['\\', 'r']
  else if 0x20 ≤ c.val && c.val ≤ 0x7e then [c]
  else ['\\', 'x', hexDigit (c.toNat / 16 % 16), hexDigit (c.toNat % 16)]

/-- Model of Go `strconv.Quote` restricted to the characters the proofs
use: a double-quoted, escaped literal. -/
def goQuote (s : String) : String :=
  ⟨'"' :: (s.data.flatMap goQuoteChar) ++ ['"']⟩

/-- Source `appendString`: quote the string when quoting is requested
and `needsQuoting` holds, else write it verbatim. -/
def appendString (s : String) (q : Bool) : String :=
  if q && needsQuoting s then goQuote s else s

/-! ### The slog value abstraction (external, consumed interface)

A value carries a kind tag: string, signed integer, unsigned integer,
boolean, duration, timestamp, nested group, opaque any, or a deferred
(lazily resolved) value.  Opaque values are condensed to the three ways
the renderer can observe them: the tintError marker wrapper, a text
marshaler (whose marshaling may fail), and the generic stringification
fallback.  Floats are omitted from the model (no claim touches float
formatting).  Duration and timestamp values carry their Go string
rendering. -/

mutual

inductive Val : Type where
  | str (s : String)
  | int (i : Int)
  | uint (n : Nat)
  | bool (b : Bool)
  | dur (s : String)
  | time (s : String)
  | group (attrs : Attrs)
  | any (a : AnyVal)
  | logValuer (payload : Val)
  deriving DecidableEq

inductive AnyVal : Type where
  | tintErr (msg : String)
  | marshaler (res : Option String)
  | other (s : String)
  deriving DecidableEq

inductive Attr : Type where
  | mk (key : String) (value : Val)
  deriving DecidableEq

inductive Attrs : Type where
  | nil
  | cons (a : Attr) (rest : Attrs)
  deriving DecidableEq

end

def Attr.key : Attr → String
  | .mk k _ => k

def Attr.value : Attr → Val
  | .mk _ v => v

/-- Modelled from the spec: slog values may be deferred and are forced
by resolution; resolving a deferred value yields its payload, fully
resolved, and every other value is already resolved.  (The slog
`Value.Resolve` operation of the consumed interface.) -/
def resolve : Val → Val
  | .logValuer v => resolve v
  | v => v

/-! ### The handler configuration -/

/-- The handler state, one field per Go struct field.  The mutex and the
output writer are I/O objects: the writer is modelled as an explicit
write function passed to `handle`, and the mutex has no observable
effect on a single rendering. -/
structure Handler where
  attrs : String
  groups : String
  groupsSlice : List String
  addSource : Bool
  level : Int
  timeFormat : String
  noColor : Bool
  replaceAttr : Option (List String → Attr → Attr)

/-- Source `clone`: copies every configuration field (the fresh clone
gets its own mutex, which the pure model does not carry). -/
def Handler.clone (h : Handler) : Handler :=
  { attrs := h.attrs
    groups := h.groups
    groupsSlice := h.groupsSlice
    addSource := h.addSource
    level := h.level
    timeFormat := h.timeFormat
    noColor := h.noColor
    replaceAttr := h.replaceAttr }

/-- Named slog levels (signed integers). -/
def LevelDebug : Int := -4

def LevelInfo : Int := 0

def LevelWarn : Int := 4

def LevelError : Int := 8

/-- Source `Enabled`: a level is enabled when it is at least the
configured minimum. -/
def enabled (h : Handler) (level : Int) : Bool :=
  decide (level ≥ h.level)

/-- Buffer helper `WriteStringIf` (buffer support code of the package):
append the string only when the condition holds. -/
def writeIf (b : Bool) (s : String) : String :=
  if b then s else ""

/-! ### Value and attribute rendering -/

/-- Source `appendKey`: faint color on, then the concatenation of the
handler group string, the record-local group string and the key pushed
through `appendString` with quoting enabled, then the equals sign and
the color reset. -/
def appendKey (h : Handler) (key : String) (groups : String) : String :=
  writeIf (!h.noColor) ansiFaint ++ appendString (h.groups ++ groups ++ key) true ++
    "=" ++ writeIf (!h.noColor) ansiReset

/-- Source `appendValue`: dispatch on the value kind.  Integers,
unsigned integers and booleans print unquoted; strings, durations,
timestamps, marshaled text and the stringification fallback go through
`appendString`; a failed marshaling writes nothing; the group and
deferred kinds match no case of the Go switch, so nothing is written
for them. -/
def appendValue : Val → Bool → String
  | .str s, q => appendString s q
  | .int i, _ => toString i
  | .uint n, _ => toString n
  | .bool b, _ => if b then "true" else "false"
  | .dur s, q => appendString s q
  | .time s, q => appendString s q
  | .group _, _ => ""
  | .logValuer _, _ => ""
  | .any (.marshaler (some d)), q => appendString d q
  | .any (.marshaler none), _ => ""
  | .any (.tintErr m), q => appendString m q
  | .any (.other s), q => appendString s q

/-- Source `appendTintError`: bright-red-faint color, the concatenation
of the group strings with the literal `err` key through `appendString`,
the equals sign, reset-to-faint, the error message through
`appendString`, and the final reset. -/
def appendTintError (h : Handler) (msg : String) (groups : String) : String :=
  writeIf (!h.noColor) ansiBrightRedFaint ++
    appendString (h.groups ++ groups ++ keyErr) true ++ "=" ++
    writeIf (!h.noColor) ansiResetFaint ++ appendString msg true ++
    writeIf (!h.noColor) ansiReset

mutual

/-- Source `appendAttr`: return immediately on an empty key; unfold a
group by extending the record-local prefix with `key + "."` and
recursing into each child; intercept the tintError marker; otherwise
write key and value followed by one space. -/
def appendAttr (h : Handler) : Attr → String → String
  | .mk key v, groups =>
    if key = "" then ""
    else
      match v with
      | .group gattrs => appendAttrs h gattrs (groups ++ key ++ ".")
      | .any (.tintErr msg) => appendTintError h msg groups ++ " "
      | v' => appendKey h key groups ++ appendValue v' true ++ " "

/-- The loop over the children of a group inside `appendAttr`. -/
def appendAttrs (h : Handler) : Attrs → String → String
  | .nil, _ => ""
  | .cons a rest, groups => appendAttr h a groups ++ appendAttrs h rest groups

end

/-! ### Level, time and source segments -/

/-- The `delta` closure of `appendLevel`: nothing when the offset is
zero, otherwise a plus sign followed by the decimal rendering of the
offset (which itself starts with a minus sign when negative). -/
def levelDelta (val : Int) : String :=
  if val = 0 then "" else "+" ++ toString val

/-- Source `appendLevel`: pick the 3-letter mnemonic by range and
append the offset from the named threshold of that mnemonic; INF, WRN
and ERR are colorized when color is enabled. -/
def appendLevel (h : Handler) (level : Int) : String :=
  if level < LevelInfo then
    "DBG" ++ levelDelta (level - LevelDebug)
  else if level < LevelWarn then
    writeIf (!h.noColor) ansiBrightGreen ++ "INF" ++ levelDelta (level - LevelInfo) ++
      writeIf (!h.noColor) ansiReset
  else if level < LevelError then
    writeIf (!h.noColor) ansiBrightYellow ++ "WRN" ++ levelDelta (level - LevelWarn) ++
      writeIf (!h.noColor) ansiReset
  else
    writeIf (!h.noColor) ansiBrightRed ++ "ERR" ++ levelDelta (level - LevelError) ++
      writeIf (!h.noColor) ansiReset

/-- Model of a Go time value as the handler observes it: its rendering
under a layout (`AppendFormat`) and its default string rendering. -/
structure GoTime where
  format : String → String
  asString : String

/-- Source `appendTime`: faint, the timestamp under the configured
layout, reset. -/
def appendTime (h : Handler) (t : GoTime) : String :=
  writeIf (!h.noColor) ansiFaint ++ t.format h.timeFormat ++ writeIf (!h.noColor) ansiReset

/-- Model of the runtime frame for the source-location segment: the
file (empty when unavailable), the line, the `dir/file` display the
filepath calls produce, and the generic stringification the rewrite
branch passes on. -/
structure Frame where
  file : String
  line : Nat
  display : String
  sprint : String

/-- Source `appendSource`: faint, an angle-bracketed `dir/file:line`
reference, reset. -/
def appendSource (h : Handler) (f : Frame) : String :=
  writeIf (!h.noColor) ansiFaint ++ "<" ++ f.display ++ ":" ++ toString f.line ++ ">" ++
    writeIf (!h.noColor) ansiReset

/-! ### Records and the emission path -/

/-- Built-in field keys of the consumed record interface. -/
def TimeKey : String := "time"

def LevelKey : String := "level"

def SourceKey : String := "source"

def MessageKey : String := "msg"

/-- The consumed log record: timestamp (none models the zero time),
level, message, resolved program-location frame and the ordered
attribute sequence. -/
structure Record where
  time : Option GoTime
  level : Int
  msg : String
  frame : Frame
  attrs : Attrs

/-- The time segment of `Handle`: skipped for the zero time; without a
rewrite function the formatted timestamp and a space; with one, the
rewritten attribute is honored (an empty key drops the segment, a time
kind reformats the original record time, anything else renders through
`appendValue` without quoting). -/
def timeSegment (h : Handler) (r : Record) : String :=
  match r.time with
  | none => ""
  | some t =>
    match h.replaceAttr with
    | none => appendTime h t ++ " "
    | some rep =>
      let a := rep h.groupsSlice (.mk TimeKey (.time t.asString))
      if a.key = "" then ""
      else
        (match a.value with
          | .time _ => appendTime h t
          | v => appendValue v false) ++ " "

/-- The level segment of `Handle`: without a rewrite function the
mnemonic and a space; with one, an empty key drops the segment, an
integer kind re-dispatches through `appendLevel`, anything else renders
through `appendValue` without quoting. -/
def levelSegment (h : Handler) (r : Record) : String :=
  match h.replaceAttr with
  | none => appendLevel h r.level ++ " "
  | some rep =>
    let a := rep h.groupsSlice (.mk LevelKey (.int r.level))
    if a.key = "" then ""
    else
      (match a.value with
        | .int i => appendLevel h i
        | v => appendValue v false) ++ " "

/-- The source segment of `Handle`: only when enabled and a file is
known; subject to the rewrite function like the other segments. -/
def sourceSegment (h : Handler) (r : Record) : String :=
  if h.addSource && r.frame.file ≠ "" then
    match h.replaceAttr with
    | none => appendSource h r.frame ++ " "
    | some rep =>
      let a := rep h.groupsSlice (.mk SourceKey (.any (.other r.frame.sprint)))
      if a.key = "" then "" else appendValue a.value false ++ " "
  else ""

/-- The message segment of `Handle`: the message and a space, or the
rewritten value without quoting. -/
def msgSegment (h : Handler) (r : Record) : String :=
  match h.replaceAttr with
  | none => r.msg ++ " "
  | some rep =>
    let a := rep h.groupsSlice (.mk MessageKey (.str r.msg))
    if a.key = "" then "" else appendValue a.value false ++ " "

/-- The attribute loop of `Handle`: each record attribute is passed
through the rewrite function when one is set, then rendered by
`appendAttr` with an empty record-local prefix. -/
def recordAttrs (h : Handler) : Attrs → String
  | .nil => ""
  | .cons a rest =>
    appendAttr h (match h.replaceAttr with | none => a | some rep => rep h.groupsSlice a) "" ++
      recordAttrs h rest

/-- The full line `Handle` accumulates in its buffer before the
emptiness check: time, level, source and message segments, the bound
attribute bytes, and the record attributes. -/
def handleBuf (h : Handler) (r : Record) : String :=
  timeSegment h r ++ levelSegment h r ++ sourceSegment h r ++ msgSegment h r ++
    h.attrs ++ recordAttrs h r.attrs

/-- The final in-place edit of `Handle`: the trailing separator byte is
overwritten with a newline. -/
def finishLine (s : String) : String :=
  s.dropRight 1 ++ "\n"

/-- Source `Handle`: build the line; when it is empty return success
without touching the writer, otherwise overwrite the last byte with a
newline and return the result of the single stream write verbatim. -/
def handle {ε : Type} (h : Handler) (write : String → Except ε Unit) (r : Record) :
    Except ε Unit :=
  let buf := handleBuf h r
  if buf = "" then Except.ok () else write (finishLine buf)

/-! ### Deriving handlers -/

/-- The loop of `WithAttrs`: render each bound attribute once, through
the rewrite function when one is set. -/
def withAttrsBuf (h : Handler) : Attrs → String
  | .nil => ""
  | .cons a rest =>
    appendAttr h (match h.replaceAttr with | none => a | some rep => rep h.groupsSlice a) "" ++
      withAttrsBuf h rest

/-- Source `WithAttrs`: the same handler for an empty list; otherwise a
clone whose bound-attribute bytes gain the rendering of the new
attributes. -/
def withAttrs (h : Handler) (attrs : Attrs) : Handler :=
  match attrs with
  | .nil => h
  | _ => { h.clone with attrs := h.attrs ++ withAttrsBuf h attrs }

/-- Source `WithGroup`: the same handler for the empty name; otherwise
a clone whose group string gains `name + "."` and whose group list
gains `name`. -/
def withGroup (h : Handler) (name : String) : Handler :=
  if name = "" then h
  else
    { h.clone with
        groups := h.groups ++ name ++ "."
        groupsSlice := h.groupsSlice ++ [name] }

/-- Source `Err`: a tinted attribute with the literal `err` key wrapping
the error in the tintError marker. -/
def Err (msg : String) : Attr :=
  .mk keyErr (.any (.tintErr msg))

/-! ### Go slice semantics for the group-name list

The `groupsSlice` field is a Go slice of strings.  `clone` copies the
slice header only, so parent and clone share the backing array, and
`WithGroup` grows the clone with `append`.  Go `append` writes in place
when spare capacity remains and allocates a doubled backing array
otherwise (capacities 0 -> 1 -> 2 -> 4 for the small string slices
here, matching the runtime growth rule for slices under 256 elements
whose element size hits exact size classes).  The model makes the
backing arrays explicit: a store of arrays, and a slice as an array
index with a length and a capacity. -/

structure GoSlice where
  arr : Nat
  len : Nat
  cap : Nat
  deriving DecidableEq, Repr

abbrev Store := List (List String)

/-- The strings a Go slice denotes: the first `len` cells of its
backing array. -/
def sliceRead (st : Store) (s : GoSlice) : List String :=
  (st.getD s.arr []).take s.len

/-- Write one cell of one backing array of the store. -/
def storeSet (st : Store) (a i : Nat) (x : String) : Store :=
  st.set a ((st.getD a []).set i x)

/-- Go `append` of one element: in place when length is below capacity
(mutating the shared backing array), else a fresh doubled array. -/
def goAppend (st : Store) (s : GoSlice) (x : String) : Store × GoSlice :=
  if s.len < s.cap then
    (storeSet st s.arr s.len x, ⟨s.arr, s.len + 1, s.cap⟩)
  else
    let newCap := if s.cap = 0 then 1 else 2 * s.cap
    let content := sliceRead st s ++ [x] ++ List.replicate (newCap - (s.len + 1)) ""
    (st ++ [content], ⟨st.length, s.len + 1, newCap⟩)

/-- The handler fields `WithGroup` touches, with the group list under
explicit Go slice semantics (the remaining fields are plain values the
clone copies unchanged). -/
structure HandlerG where
  groups : String
  groupsSlice : GoSlice
  deriving DecidableEq, Repr

/-- Source `WithGroup` under explicit slice semantics: identical
handler on the empty name, else a clone (sharing the slice header)
whose group string gains `name + "."` and whose group list is grown
with Go `append`. -/
def withGroupG (st : Store) (h : HandlerG) (name : String) : Store × HandlerG :=
  if name = "" then (st, h)
  else
    let r := goAppend st h.groupsSlice name
    (r.1, ⟨h.groups ++ name ++ ".", r.2⟩)

/-- A fresh handler from `NewHandler`: empty group string, nil group
slice, empty store. -/
def newHandlerG : Store × HandlerG :=
  (([] : Store), ⟨"", ⟨0, 0, 0⟩⟩)

/-- A chain of three named groups: the parent both siblings derive
from. -/
def g3 : Store × HandlerG :=
  let s1 := withGroupG newHandlerG.1 newHandlerG.2 "a"
  let s2 := withGroupG s1.1 s1.2 "b"
  withGroupG s2.1 s2.2 "c"

/-- First sibling derivation from the three-group parent. -/
def g4 : Store × HandlerG :=
  withGroupG g3.1 g3.2 "d"

/-- Second sibling derivation from the same parent, after the first
(threading the store, i.e. the heap, through). -/
def g5 : Store × HandlerG :=
  withGroupG g4.1 g3.2 "e"

/-! ### Concrete handlers and records for evaluation -/

/-- A fresh handler with color disabled (the `NoColor` option), no
bound attributes, no groups, no rewrite function. -/
def hNC : Handler :=
  { attrs := ""
    groups := ""
    groupsSlice := []
    addSource := false
    level := LevelInfo
    timeFormat := ""
    noColor := true
    replaceAttr := none }

/-- A handler like `hNC` whose accumulated group string contains spaces
(derived as `WithGroup("g r o u p")` of a fresh handler). -/
def hGS : Handler :=
  withGroup hNC "g r o u p"

/-- A concrete record: zero time, INFO level, message `test`, no
source frame, one string attribute. -/
def recW : Record :=
  { time := none
    level := 0
    msg := "test"
    frame := ⟨"", 0, "", ""⟩
    attrs := .cons (.mk "key" (.str "val")) .nil }

/-- A writer whose single write always fails. -/
def writeBoom : String → Except String Unit :=
  fun _ => Except.error "boom"

end Tint

namespace Tint

/-! ## Theorems settling the claims -/

/-- C1: the claim says an empty-key group attribute is still unfolded,
its children inheriting the unchanged prefix, so that an attribute
wrapped in an anonymous group renders exactly as if unwrapped.  The
source `appendAttr` instead returns before the kind switch whenever the
key is empty: the anonymous group wrapping `c=d` contributes nothing to
the line, while the unwrapped attribute renders `c=d ` — contradicting
the regression test of the repository that expects `a=b c=d e=f` for
an anonymous group between `a=b` and `e=f`. -/
theorem anonymousGroupDropped :
    appendAttr hNC (.mk "" (.group (.cons (.mk "c" (.str "d")) .nil))) "" = "" ∧
    appendAttr hNC (.mk "c" (.str "d")) "" = "c=d " ∧
    ("" : String) ≠ "c=d " := by
  refine ⟨rfl, rfl, by decide⟩

/-- C2: the claim says a string is rendered quoted if and only if it is
empty or contains whitespace, a double quote, an equals sign or a
non-printable character, the empty string always appearing as the
quoted literal.  The source `needsQuoting` loop never runs on the empty
string and reports false, so `appendString` writes the empty string
verbatim (nothing) instead of the quoted literal the claim and the
repository test `key=""` expect. -/
theorem emptyStringUnquoted :
    appendString "" true = "" ∧ needsQuoting "" = false ∧ goQuote "" = "\"\"" :=
  ⟨rfl, rfl, rfl⟩

/-- C3: the claim says a tintError attribute renders under the literal
`err` key unless the caller overrode the attribute key, in which case
the caller key is honored.  The source `appendTintError` never consults
the attribute key: an error attribute whose key was overridden to
`error` still renders `err=fail `, contradicting the repository test
that expects `error=fail`. -/
theorem errKeyNotOverridable :
    appendAttr hNC (.mk "error" (.any (.tintErr "fail"))) "" = "err=fail " ∧
    ("err=fail " : String) ≠ "error=fail " := by
  refine ⟨rfl, by decide⟩

/-- C4: the claim says a level below the mnemonic threshold gets a
`-N` suffix (and one above a `+N` suffix).  The source `delta` closure
writes a `+` byte unconditionally before the decimal offset, so level
DEBUG-1 renders `DBG+-1` instead of the `DBG-1` the claim and the
repository test expect (INFO+1 does render `INF+1`). -/
theorem negativeLevelDelta :
    appendLevel hNC (LevelDebug - 1) = "DBG+-1" ∧
    appendLevel hNC (LevelInfo + 1) = "INF+1" ∧
    ("DBG+-1" : String) ≠ "DBG-1" := by
  refine ⟨rfl, rfl, by decide⟩

/-- C5: the claim says every attribute value is resolved (deferred
computation forced) before its kind is dispatched.  The source
`appendAttr` inspects the kind directly and never resolves: a deferred
value matches no case of the value switch and renders as an empty
value (`key= `), while the same attribute resolved first renders its
payload (`key=x `). -/
theorem deferredNotResolved :
    appendAttr hNC (.mk "key" (.logValuer (.str "x"))) "" = "key= " ∧
    appendAttr hNC (.mk "key" (resolve (.logValuer (.str "x")))) "" = "key=x " ∧
    ("key= " : String) ≠ "key=x " := by
  refine ⟨rfl, rfl, by decide⟩

/-- C6: Handle returns an error exactly when the single stream write
fails, propagating that write result verbatim; and when the rendered
line is empty it returns success without performing any write (the
result is `ok` for every writer whatsoever). -/
theorem handleWriteCharacterization {ε : Type} (h : Handler)
    (write : String → Except ε Unit) (r : Record) :
    (handleBuf h r = "" → handle h write r = Except.ok ()) ∧
    (handleBuf h r ≠ "" → handle h write r = write (finishLine (handleBuf h r))) ∧
    (∀ e : ε, handle h write r = Except.error e ↔
      handleBuf h r ≠ "" ∧ write (finishLine (handleBuf h r)) = Except.error e) := by
  by_cases hb : handleBuf h r = ""
  · refine ⟨fun _ => by simp [handle, hb], fun hne => absurd hb hne, fun e => ?_⟩
    simp [handle, hb]
  · refine ⟨fun heq => absurd heq hb, fun _ => by simp [handle, hb], fun e => ?_⟩
    simp [handle, hb]

/-- Witness for C6 at a concrete handler, record and failing writer. -/
theorem handleWriteCharacterizationWitness :
    handle hNC writeBoom recW = writeBoom (finishLine (handleBuf hNC recW)) :=
  (handleWriteCharacterization hNC writeBoom recW).2.1 (by decide)

/-- C7: Enabled holds exactly when the level is at least the configured
minimum level of the handler. -/
theorem enabledIff (h : Handler) (level : Int) :
    enabled h level = true ↔ level ≥ h.level := by
  simp [enabled]

/-- Witness for C7 at a concrete handler and level. -/
theorem enabledIffWitness : enabled hNC 3 = true :=
  (enabledIff hNC 3).mpr (by decide)

/-- C8: deriving with an empty attribute list and opening an empty
group name both return the very same handler. -/
theorem withEmptyIdentity (h : Handler) :
    withAttrs h .nil = h ∧ withGroup h "" = h :=
  ⟨rfl, rfl⟩

/-- Witness for C8 at a concrete handler. -/
theorem withEmptyIdentityWitness :
    withAttrs hNC .nil = hNC ∧ withGroup hNC "" = hNC :=
  withEmptyIdentity hNC

/-- C9: the claim says handlers derived from a common parent are
independent — a derivation on one never alters the observable state of
another.  Under Go slice semantics the clone shares the group-list
backing array with its parent: after three chained groups the array
has spare capacity, so the first sibling derivation `d` writes in
place and the second sibling derivation `e` overwrites the same cell.
The first sibling observably changes from `[a, b, c, d]` to
`[a, b, c, e]` (the list handed to the rewrite function), while the
parent itself still reads `[a, b, c]`. -/
theorem siblingDerivationInterferes :
    sliceRead g4.1 g4.2.groupsSlice = ["a", "b", "c", "d"] ∧
    sliceRead g5.1 g4.2.groupsSlice = ["a", "b", "c", "e"] ∧
    sliceRead g5.1 g3.2.groupsSlice = ["a", "b", "c"] := by
  refine ⟨rfl, rfl, rfl⟩

/-- C10: the handler group string, the record-local group string and
the attribute key are concatenated first and the quoting rule is
applied to the whole dotted key: whenever any of the three components
requires quoting, the rendered key is the single quoted literal of the
whole concatenation. -/
theorem keyQuotedAsWhole (h : Handler) (key groups : String)
    (hq : needsQuoting h.groups = true ∨ needsQuoting groups = true ∨
      needsQuoting key = true) :
    appendKey h key groups =
      writeIf (!h.noColor) ansiFaint ++ goQuote (h.groups ++ groups ++ key) ++ "=" ++
        writeIf (!h.noColor) ansiReset := by
  have hall : needsQuoting (h.groups ++ groups ++ key) = true := by
    simp only [needsQuoting, String.data_append, List.any_append, Bool.or_eq_true] at *
    rcases hq with h1 | h1 | h1 <;> simp [h1]
  simp [appendKey, appendString, hall]

/-- Witness for C10: a group name containing spaces quotes the whole
dotted key, as in the repository test expecting a single quoted
literal for the group-dot-key string. -/
theorem keyQuotedAsWholeWitness :
    appendKey hGS "key" "" =
      writeIf (!hGS.noColor) ansiFaint ++ goQuote (hGS.groups ++ "" ++ "key") ++ "=" ++
        writeIf (!hGS.noColor) ansiReset :=
  keyQuotedAsWhole hGS "key" "" (Or.inl (by decide))

end Tint
